import Mathlib

/-!
Verification development for the swanframe/crm repository.

The Python source is shallowly embedded: database tables become lists of
records, SQL queries become list operations, Decimal/numeric values become
rationals, and Python dictionaries become association lists.  Each
definition is translated from the function of the source file named in its
doc comment.
-/

namespace Crm

/-! ## Calendar dates (Python datetime.date) -/

/-- Calendar date: year, month, day. -/
structure Date where
  year : Nat
  month : Nat
  day : Nat
deriving DecidableEq, Repr

/-- Gregorian leap-year rule used by Python's calendar module. -/
def isLeapYear (y : Nat) : Bool :=
  (y % 4 == 0 && y % 100 != 0) || y % 400 == 0

/-- Number of days of a month, as calendar.monthrange(y, m)[1]. -/
def daysInMonth (y m : Nat) : Nat :=
  if m = 2 then (if isLeapYear y then 29 else 28)
  else if m = 4 ∨ m = 6 ∨ m = 9 ∨ m = 11 then 30
  else 31

/-- SQL date ordering (lexicographic on year, month, day). -/
def dateLE (a b : Date) : Bool :=
  a.year < b.year ||
    (a.year == b.year &&
      (a.month < b.month || (a.month == b.month && a.day ≤ b.day)))

/-! ## Revenue data model (src/models/revenue.py, revenue_item.py,
revenue_type.py) -/

/-- Row of the revenue_types table. -/
structure RevenueType where
  revenue_type_id : Nat
  revenue_type_name : String
  revenue_type_category : String
deriving DecidableEq, Repr

/-- Row of the revenue_items table.  Amounts are modelled as rationals. -/
structure RevenueItem where
  revenue_item_id : Nat
  revenue_id : Nat
  revenue_type_id : Nat
  revenue_item_amount : ℚ
deriving DecidableEq, Repr

/-- Row of the revenues table. -/
structure Revenue where
  revenue_id : Nat
  store_id : Nat
  revenue_date : Date
deriving DecidableEq, Repr

/-- RevenueType.find_by_id over an embedded revenue_types table. -/
def find_revenue_type (types : List RevenueType) (tid : Nat) :
    Option RevenueType :=
  types.find? (fun t => t.revenue_type_id == tid)

/-- RevenueItem.get_revenue_type_category (src/models/revenue_item.py):
returns the category of the linked revenue type, or "N/A" when the type
cannot be resolved. -/
def get_revenue_type_category (types : List RevenueType)
    (item : RevenueItem) : String :=
  match find_revenue_type types item.revenue_type_id with
  | some t => t.revenue_type_category
  | none => "N/A"

/-- Category of an item as seen through the SQL LEFT JOIN onto
revenue_types: none when the join finds no row. -/
def joined_category (types : List RevenueType) (item : RevenueItem) :
    Option String :=
  (find_revenue_type types item.revenue_type_id).map
    (fun t => t.revenue_type_category)

/-- total_additions of format_revenue_message
(src/utilities/whatsapp_sender.py line 149). -/
def total_additions (types : List RevenueType)
    (items : List RevenueItem) : ℚ :=
  ((items.filter
      (fun i => get_revenue_type_category types i == "Addition")).map
    (fun i => i.revenue_item_amount)).sum

/-- total_deductions of format_revenue_message
(src/utilities/whatsapp_sender.py line 150). -/
def total_deductions (types : List RevenueType)
    (items : List RevenueItem) : ℚ :=
  ((items.filter
      (fun i => get_revenue_type_category types i == "Deduction")).map
    (fun i => i.revenue_item_amount)).sum

/-- net_revenue of format_revenue_message
(src/utilities/whatsapp_sender.py line 151). -/
def net_revenue (types : List RevenueType)
    (items : List RevenueItem) : ℚ :=
  total_additions types items - total_deductions types items

/-- Inner SELECT of Revenue.get_monthly_net_revenue: the net_amount
aggregated for one revenues row, via LEFT JOIN onto revenue_items and
revenue_types and the two CASE sums. -/
def sql_net_amount (types : List RevenueType)
    (items : List RevenueItem) (rid : Nat) : ℚ :=
  let its := items.filter (fun i => i.revenue_id == rid)
  (its.map (fun i =>
      if joined_category types i == some "Addition"
      then i.revenue_item_amount else 0)).sum
    - (its.map (fun i =>
      if joined_category types i == some "Deduction"
      then i.revenue_item_amount else 0)).sum

/-- Revenue.get_monthly_net_revenue (src/models/revenue.py lines 102-129):
sums the per-revenue net amounts of the store over the month, the date
range running from the first to the last day of the month. -/
def get_monthly_net_revenue (revenues : List Revenue)
    (items : List RevenueItem) (types : List RevenueType)
    (sid year month : Nat) : ℚ :=
  let start_date : Date := ⟨year, month, 1⟩
  let end_date : Date := ⟨year, month, daysInMonth year month⟩
  ((revenues.filter (fun r =>
      r.store_id == sid && dateLE start_date r.revenue_date &&
        dateLE r.revenue_date end_date)).map
    (fun r => sql_net_amount types items r.revenue_id)).sum

/-! ## Store revenue targets (src/models/store_revenue_target.py) and the
achievement percentage of format_revenue_message -/

/-- Row of the store_revenue_targets table. -/
structure StoreRevenueTarget where
  target_id : Nat
  store_id : Nat
  target_month : Nat
  target_year : Nat
  target_amount : ℚ
deriving DecidableEq, Repr

/-- StoreRevenueTarget.find_all_for_store_by_year
(src/models/store_revenue_target.py lines 51-58): the targets of the
store for the year.  The ORDER BY target_month of the query does not
affect which rows are returned. -/
def find_all_for_store_by_year (targets : List StoreRevenueTarget)
    (sid year : Nat) : List StoreRevenueTarget :=
  targets.filter (fun t => t.store_id == sid && t.target_year == year)

/-- Dictionary comprehension keyed on target_month followed by .get(month)
(src/utilities/whatsapp_sender.py lines 161-162): the last element with
the month wins. -/
def lookup_target_by_month (ts : List StoreRevenueTarget) (m : Nat) :
    Option StoreRevenueTarget :=
  ts.reverse.find? (fun t => t.target_month == m)

/-- Achievement-percentage computation of format_revenue_message
(src/utilities/whatsapp_sender.py lines 158-174), given the accumulated
monthly net revenue. -/
def achievement_percentage (targets : List StoreRevenueTarget)
    (sid year month : Nat) (accumulated : ℚ) : ℚ :=
  match lookup_target_by_month
      (find_all_for_store_by_year targets sid year) month with
  | some t =>
    if 0 < t.target_amount then accumulated / t.target_amount * 100 else 0
  | none => 0

/-! ## Performance notes of format_revenue_message (C5) -/

/-- remaining_target computed at src/utilities/whatsapp_sender.py
line 221. -/
def remaining_target (target_amount accumulated : ℚ) : ℚ :=
  target_amount - accumulated

/-- days_remaining computed at line 222: days from the revenue date to the
last day of its month. -/
def days_remaining (rd : Date) : Int :=
  (daysInMonth rd.year rd.month : Int) - (rd.day : Int)

/-- required_daily computed at line 225. -/
def required_daily (target_amount accumulated : ℚ) (dr : Int) : ℚ :=
  remaining_target target_amount accumulated / (dr : ℚ)

/-- Values interpolated into the performance-notes section
(src/utilities/whatsapp_sender.py lines 224-231) when a target exists:
(days remaining, value shown on the remaining-target line, value shown on
the required-daily line).  The source interpolates
format_currency_id(net_revenue) into both lines. -/
def performance_notes_shown (net_rev : ℚ) (rd : Date) :
    Option (Int × ℚ × ℚ) :=
  let dr := days_remaining rd
  if 0 < dr then some (dr, net_rev, net_rev) else none

/-! ## Reservation codes (src/models/reservation.py) -/

/-- Zero-padded two-digit decimal rendering: strftime with %d, %m or %y
for values below 100. -/
def twoDigit (n : Nat) : List Char :=
  [Nat.digitChar (n / 10 % 10), Nat.digitChar (n % 10)]

/-- Decimal value of a digit string, most significant first. -/
def digitsVal (l : List Char) : Nat :=
  l.foldl (fun a c => a * 10 + (c.toNat - 48)) 0

/-- Reservation.generate_reservation_code (src/models/reservation.py
lines 42-60).  The four uppercase letters drawn by random.choices are a
parameter of the embedding. -/
def generate_reservation_code (letters : List Char) (d : Date) : String :=
  ⟨letters ++ twoDigit d.day ++ twoDigit d.month ++ twoDigit (d.year % 100)⟩

/-- Python truthiness of an optional string: None and the empty string
are falsy. -/
def strTruthy : Option String → Bool
  | none => false
  | some s => !(s == "")

/-- reservation_code assignment on the INSERT branch of Reservation.save
(src/models/reservation.py lines 110-118). -/
def reservation_code_on_insert (code : Option String) (dt : Option Date)
    (letters : List Char) : Option String :=
  match strTruthy code, dt with
  | false, some d => some (generate_reservation_code letters d)
  | false, none => none
  | true, _ => code

/-! ## Role-based access (src/app.py) -/

/-- Row of the users table, restricted to what role_required reads. -/
structure User where
  user_id : Nat
  user_level : String
deriving DecidableEq, Repr

/-- Outcome of a request to a decorated route. -/
inductive RouteOutcome where
  | redirectLogin : RouteOutcome
  | redirectDashboard : RouteOutcome
  | handlerExecuted : RouteOutcome
deriving DecidableEq, Repr

/-- role_required decorator (src/app.py lines 41-53): no logged-in user
redirects to login; a user whose level is not among the allowed roles
redirects to the dashboard; otherwise the wrapped handler runs. -/
def role_required (allowed_roles : List String) (g_user : Option User) :
    RouteOutcome :=
  match g_user with
  | none => RouteOutcome.redirectLogin
  | some u =>
    if allowed_roles.contains u.user_level then RouteOutcome.handlerExecuted
    else RouteOutcome.redirectDashboard

/-! ## Python keyword binding for the join-table overrides (C8) -/

/-- Parameter names of BaseModel.get_paginated_data
(src/models/base_model.py line 126), cls excluded as it is bound by
super(). -/
def base_get_paginated_data_params : List String :=
  ["page", "per_page", "search_query", "search_columns", "sort_by",
    "sort_order"]

/-- Parameter names of BaseModel.count_all (src/models/base_model.py
line 178), cls excluded. -/
def base_count_all_params : List String :=
  ["search_query", "search_columns"]

/-- Extra keyword arguments passed by Revenue.get_paginated_data and
Revenue.count_all (src/models/revenue.py lines 77-80 and 97-100),
independent of the call arguments. -/
def revenue_join_kwargs : List String :=
  ["join_tables", "join_columns_for_search"]

/-- Extra keyword arguments passed by Reservation.get_paginated_data and
Reservation.count_all (src/models/reservation.py lines 197-200 and
220-223), independent of the call arguments. -/
def reservation_join_kwargs : List String :=
  ["join_tables", "join_columns_for_search"]

/-- Python call binding: a call raises TypeError exactly when some keyword
argument is not among the callee's parameter names (and the callee has no
kwargs catch-all, which is the case here). -/
def call_raises_type_error (params kwargs : List String) : Bool :=
  kwargs.any (fun k => !(params.contains k))

/-! ## Store-customer links (src/models/store_customer.py) -/

/-- StoreCustomer.save (src/models/store_customer.py lines 23-49):
INSERT INTO store_customers ... ON CONFLICT (store_id, customer_id)
DO NOTHING, commit, return True.  State is the store_customers table as a
list of (store_id, customer_id) pairs. -/
def store_customer_save (table : List (Nat × Nat)) (sid cid : Nat) :
    Bool × List (Nat × Nat) :=
  if (sid, cid) ∈ table then (true, table)
  else (true, table ++ [(sid, cid)])

/-! ## Text utilities shared by the pagination query and the claims -/

/-- ASCII lower-casing of one character: the case folding of Python
str.lower and of the database's ILIKE over this application's ASCII
column names and data. -/
def lowerChar (c : Char) : Char :=
  if 'A' ≤ c ∧ c ≤ 'Z' then Char.ofNat (c.toNat + 32) else c

/-- Python str.lower / case folding of a string. -/
def pyLower (s : String) : String :=
  ⟨s.toList.map lowerChar⟩

/-- Prefix test on character lists. -/
def isPrefixOfB : List Char → List Char → Bool
  | [], _ => true
  | _ :: _, [] => false
  | a :: as, b :: bs => a == b && isPrefixOfB as bs

/-- Substring test on character lists. -/
def isSubstrOfB (needle hay : List Char) : Bool :=
  match hay with
  | [] => needle.isEmpty
  | c :: rest => isPrefixOfB needle (c :: rest) || isSubstrOfB needle rest

/-- Stated from the claim, for comparison with the program: the query
occurs in the text as a case-insensitive substring.  SQL ILIKE with the
%query% pattern does not reduce to this when the query holds the LIKE
metacharacters percent or underscore. -/
def claimed_substring_ci (q s : String) : Bool :=
  isSubstrOfB (pyLower q).toList (pyLower s).toList

/-! ## BaseModel.save (src/models/base_model.py lines 207-284).  The
instance attribute dictionary and the table rows are association lists of
column name to cell value; timestamps are naturals. -/

/-- SQL cell value. -/
inductive Value where
  | vnull : Value
  | vint : Int → Value
  | vstr : String → Value
  | vtime : Nat → Value
deriving DecidableEq, Repr

/-- Attribute dictionary or table row: column name to value. -/
abbrev Attrs := List (String × Value)

/-- First-match association lookup (the attribute dictionary and SQL row
have unique keys). -/
def lookupAttr (a : Attrs) (k : String) : Option Value :=
  ((a.find? (fun kv => kv.1 == k)).map (fun kv => kv.2))

/-- Python setattr on the attribute dictionary: overwrite the key in
place when present, else append it. -/
def setAttr (a : Attrs) (k : String) (v : Value) : Attrs :=
  if a.any (fun kv => kv.1 == k) then
    a.map (fun kv => if kv.1 == k then (k, v) else kv)
  else a ++ [(k, v)]

/-- Python truthiness of a value: None, 0 and the empty string are
falsy. -/
def truthy : Value → Bool
  | Value.vnull => false
  | Value.vint n => !(n == 0)
  | Value.vstr s => !(s == "")
  | Value.vtime _ => true

/-- getattr(self, self._primary_key, None) at line 218. -/
def pkValueOf (attrs : Attrs) (pk : String) : Value :=
  (lookupAttr attrs pk).getD Value.vnull

/-- A named unique constraint of the table over a list of columns. -/
structure UniqueConstraint where
  cname : String
  cols : List String
deriving DecidableEq, Repr

/-- Two rows collide on a constraint when they agree on every constraint
column. -/
def rowsConflict (cols : List String) (r1 r2 : Attrs) : Bool :=
  cols.all (fun c => lookupAttr r1 c == lookupAttr r2 c)

/-- Some two distinct rows of the table collide on the columns. -/
def anyPairConflict (cols : List String) : List Attrs → Bool
  | [] => false
  | r :: rs => rs.any (rowsConflict cols r) || anyPairConflict cols rs

/-- The embedded database reports a UniqueViolation on a table state
exactly when some unique constraint has two colliding rows; the name of
the first such constraint is reported. -/
def findViolation (cs : List UniqueConstraint) (table : List Attrs) :
    Option String :=
  ((cs.find? (fun c => anyPairConflict c.cols table)).map
    (fun c => c.cname))

/-- Columns excluded from the SET clause of the UPDATE (line 232). -/
def updateExcluded : List String :=
  ["created_at", "created_by", "updated_at", "updated_by", "_last_error"]

/-- SET clause of the UPDATE (lines 227-238, with user_id = None): every
attribute except the primary key and the excluded columns, then
updated_at = now. -/
def updateSets (attrs : Attrs) (pk : String) (now : Nat) : Attrs :=
  (attrs.filter (fun kv =>
      !(kv.1 == pk) && !(updateExcluded.contains kv.1)))
    ++ [("updated_at", Value.vtime now)]

/-- Application of a SET clause to a row. -/
def applySets (row : Attrs) (sets : Attrs) : Attrs :=
  sets.foldl (fun r kv => setAttr r kv.1 kv.2) row

/-- Table state after UPDATE ... WHERE pk = pkv ran (before commit). -/
def updatedTable (table : List Attrs) (pk : String) (pkv : Value)
    (sets : Attrs) : List Attrs :=
  table.map (fun r =>
    if lookupAttr r pk == some pkv then applySets r sets else r)

/-- Instance attributes at the INSERT statement: created_at and
updated_at set to the current time (lines 255-256). -/
def insertAttrs (attrs : Attrs) (now : Nat) : Attrs :=
  setAttr (setAttr attrs "created_at" (Value.vtime now)) "updated_at"
    (Value.vtime now)

/-- Row assembled by the INSERT column loop (lines 263-269): every
attribute, the primary key only when its value is not None. -/
def insertRow (attrs : Attrs) (pk : String) (now : Nat) : Attrs :=
  (insertAttrs attrs now).filter (fun kv =>
    !(kv.1 == pk) || !(kv.2 == Value.vnull))

/-- setattr loop refreshing the instance from the RETURNING row
(lines 279-280). -/
def refreshAttrs (attrs : Attrs) (row : Attrs) : Attrs :=
  applySets attrs row

/-- Result of BaseModel.save: return value, instance attributes,
_last_error, and the stored table state after commit or rollback. -/
structure SaveResult where
  ok : Bool
  attrs : Attrs
  lastError : Option String
  table : List Attrs
deriving DecidableEq, Repr

/-- Error prefix produced by _execute_query on UniqueViolation
(src/models/base_model.py line 67). -/
def dupPrefix : String := "duplicate_key_error:"

/-- Whether the statement save would run violates a unique constraint:
the condition under which the embedded database raises
UniqueViolation. -/
def save_violation (cs : List UniqueConstraint) (pk : String) (now : Nat)
    (attrs : Attrs) (table : List Attrs) : Bool :=
  if truthy (pkValueOf attrs pk) then
    (findViolation cs (updatedTable table pk (pkValueOf attrs pk)
      (updateSets attrs pk now))).isSome
  else
    (findViolation cs (table ++ [insertRow attrs pk now])).isSome

/-- BaseModel.save (src/models/base_model.py lines 207-284) with
user_id = None: UPDATE keyed on the primary key when its value is truthy,
INSERT otherwise; on UniqueViolation the transaction is rolled back, the
error string stored and False returned; on success the instance is
refreshed from the RETURNING row and True returned. -/
def base_model_save (cs : List UniqueConstraint) (pk : String) (now : Nat)
    (attrs : Attrs) (table : List Attrs) : SaveResult :=
  if truthy (pkValueOf attrs pk) then
    match findViolation cs (updatedTable table pk (pkValueOf attrs pk)
        (updateSets attrs pk now)) with
    | some cn =>
      { ok := false, attrs := attrs, lastError := some (dupPrefix ++ cn),
        table := table }
    | none =>
      match (updatedTable table pk (pkValueOf attrs pk)
          (updateSets attrs pk now)).find?
          (fun r => lookupAttr r pk == some (pkValueOf attrs pk)) with
      | some row =>
        { ok := true, attrs := refreshAttrs attrs row, lastError := none,
          table := updatedTable table pk (pkValueOf attrs pk)
            (updateSets attrs pk now) }
      | none =>
        { ok := false, attrs := attrs,
          lastError := some "Unknown error during save.",
          table := updatedTable table pk (pkValueOf attrs pk)
            (updateSets attrs pk now) }
  else
    match findViolation cs (table ++ [insertRow attrs pk now]) with
    | some cn =>
      { ok := false, attrs := insertAttrs attrs now,
        lastError := some (dupPrefix ++ cn), table := table }
    | none =>
      { ok := true,
        attrs := refreshAttrs (insertAttrs attrs now)
          (insertRow attrs pk now),
        lastError := none, table := table ++ [insertRow attrs pk now] }

/-! ## BaseModel.get_paginated_data (src/models/base_model.py lines
126-175).  A table row is a finite map from column names to typed SQL
cell values (the Attrs association lists of the save embedding); the
composed SQL query becomes filter, sort, drop and take over the row
list. -/

/-- Table row for the pagination query: column name to typed cell
value. -/
abbrev Row := Attrs

/-- Typed value of a column of a row (SQL cell lookup; a column absent
from the row reads as NULL). -/
def colVal (r : Row) (c : String) : Value :=
  (lookupAttr r c).getD Value.vnull

/-- Text rendering of a cell, the operand ILIKE compares against (NULL
renders as the empty text, which no truthy %query% pattern matches). -/
def valText : Value → String
  | Value.vnull => ""
  | Value.vint n => toString n
  | Value.vstr s => s
  | Value.vtime t => toString t

/-- Rank separating the value types, null greatest (ASC places NULLs
last); a well-typed column never compares across types, so the order
between distinct types is an arbitrary fixed total one. -/
def valRank : Value → Nat
  | Value.vint _ => 0
  | Value.vstr _ => 1
  | Value.vtime _ => 2
  | Value.vnull => 3

/-- SQL ORDER BY comparison on typed cell values: integers numerically,
strings lexicographically, timestamps chronologically. -/
def valLe (a b : Value) : Bool :=
  match a, b with
  | Value.vint m, Value.vint n => decide (m ≤ n)
  | Value.vstr s, Value.vstr t => decide (s ≤ t)
  | Value.vtime s, Value.vtime t => decide (s ≤ t)
  | _, _ => decide (valRank a ≤ valRank b)

/-- SQL LIKE pattern matching over characters: percent matches any
sequence, underscore matches any single character, a backslash escapes
the character after it, and any other character matches itself. -/
def likeMatch : List Char → List Char → Bool
  | [], s => s.isEmpty
  | '\\' :: p :: ps, s =>
    match s with
    | [] => false
    | c :: s2 => p == c && likeMatch ps s2
  | '%' :: ps, s =>
    (List.range (s.length + 1)).any (fun k => likeMatch ps (s.drop k))
  | '_' :: ps, s =>
    match s with
    | [] => false
    | _ :: s2 => likeMatch ps s2
  | p :: ps, s =>
    match s with
    | [] => false
    | c :: s2 => p == c && likeMatch ps s2

/-- SQL ILIKE with the pattern '%' + query + '%' built at base_model.py
line 150: LIKE wildcard matching of the pattern against the cell text,
both sides case-folded. -/
def ilike (q s : String) : Bool :=
  likeMatch ('%' :: ((pyLower q).toList ++ ['%'])) (pyLower s).toList

/-- WHERE clause of get_paginated_data (lines 146-151): kept only when
search_query and search_columns are both given and truthy, an OR of the
ILIKE tests over the columns. -/
def searchFilter (search_query : Option String)
    (search_columns : Option (List String)) (rows : List Row) : List Row :=
  match search_query, search_columns with
  | some q, some cols =>
    if !(q == "") && !cols.isEmpty then
      rows.filter (fun r => cols.any (fun c => ilike q (valText (colVal r c))))
    else rows
  | _, _ => rows

/-- Ascending comparison of two rows on a column. -/
def rowLe (col : String) (a b : Row) : Bool :=
  valLe (colVal a col) (colVal b col)

/-- Descending comparison of two rows on a column. -/
def rowGe (col : String) (a b : Row) : Bool :=
  valLe (colVal b col) (colVal a col)

/-- ORDER BY clause of get_paginated_data (lines 153-164): sort by the
given column, the direction falling back to ASC unless sort_order is asc
or desc case-insensitively; without sort_by, sort by the primary key
ascending. -/
def orderedRows (pk : String) (sort_by : Option String)
    (sort_order : String) (rows : List Row) : List Row :=
  match sort_by with
  | some col =>
    let ord := if pyLower sort_order == "asc" || pyLower sort_order == "desc"
      then pyLower sort_order else "asc"
    if ord == "desc" then rows.mergeSort (rowGe col)
    else rows.mergeSort (rowLe col)
  | none => rows.mergeSort (rowLe pk)

/-- BaseModel.get_paginated_data (src/models/base_model.py lines 126-175):
WHERE, ORDER BY, then LIMIT per_page OFFSET (page - 1) * per_page. -/
def get_paginated_data (rows : List Row) (pk : String)
    (page per_page : Nat) (search_query : Option String)
    (search_columns : Option (List String)) (sort_by : Option String)
    (sort_order : String) : List Row :=
  ((orderedRows pk sort_by sort_order
      (searchFilter search_query search_columns rows)).drop
    ((page - 1) * per_page)).take per_page

/-! ## Number formatting (src/utilities/formatting.py).  Numeric values
are modelled as exact rationals, standing for the Decimal values of the
source. -/

/-- Decimal digit characters of a natural number, most significant digit
first; 0 renders as the single digit 0. -/
def natDigits (n : Nat) : List Char :=
  if n = 0 then ['0'] else (Nat.digits 10 n).reverse.map Nat.digitChar

/-- Thousands grouping on a reversed digit list: the separator inserted
after every three characters. -/
def group3Rev (sep : Char) : List Char → List Char
  | a :: b :: c :: d :: rest =>
    a :: b :: c :: sep :: group3Rev sep (d :: rest)
  | l => l

/-- Thousands grouping from the right, as the comma of the Python format
spec ",.Nf". -/
def group3 (sep : Char) (l : List Char) : List Char :=
  (group3Rev sep l.reverse).reverse

/-- Fraction digits of m, zero-padded on the left to exactly d digits. -/
def fracDigits (d m : Nat) : List Char :=
  List.replicate
      (d - (if m = 0 then [] else
        (Nat.digits 10 m).reverse.map Nat.digitChar).length) '0'
    ++ (if m = 0 then [] else
      (Nat.digits 10 m).reverse.map Nat.digitChar)

/-- US-style fixed-point rendering of the scaled nonnegative value
n / 10^d produced by the format spec ",.df": comma-grouped integer part,
then a dot and exactly d fraction digits when d is positive. -/
def usFormat (n d : Nat) : List Char :=
  group3 ',' (natDigits (n / 10 ^ d))
    ++ (if d = 0 then [] else '.' :: fracDigits d (n % 10 ^ d))

/-- Separator swap of format_number_id line 25 (via the temporary X in
the source; equivalent to the charwise swap because the US rendering
contains no X). -/
def swapSep (c : Char) : Char :=
  if c == ',' then '.' else if c == '.' then ',' else c

/-- Round half to even of a rational to an integer: the rounding Python
Decimal formatting applies to the magnitude. -/
def rheInt (q : ℚ) : ℤ :=
  if Int.fract q < 1/2 then ⌊q⌋
  else if 1/2 < Int.fract q then ⌊q⌋ + 1
  else if ⌊q⌋ % 2 = 0 then ⌊q⌋ else ⌊q⌋ + 1

/-- format_number_id (src/utilities/formatting.py lines 13-26) on an
exact rational value: sign of the value, then the US rendering of the
rounded magnitude with thousands and decimal separators swapped. -/
def format_number_id (v : ℚ) (d : Nat) : String :=
  ⟨(if v < 0 then ['-'] else [])
    ++ ((usFormat (rheInt (|v| * 10 ^ d)).toNat d).map swapSep)⟩

/-- Sign-stripping step of float() parsing. -/
def stripNeg (l : List Char) : Bool × List Char :=
  match l with
  | c :: rest => if c == '-' then (true, rest) else (false, l)
  | [] => (false, l)

/-- Split a character list at its first dot. -/
def splitAtDot : List Char → List Char × Option (List Char)
  | [] => ([], none)
  | c :: rest =>
    if c == '.' then ([], some rest)
    else ((c :: (splitAtDot rest).1), (splitAtDot rest).2)

/-- Python float() on the plain decimal strings arising here: optional
minus sign, integer digits, optionally a dot and fraction digits; the
exact rational value is returned. -/
def parseDecimal (l : List Char) : Option ℚ :=
  match (splitAtDot (stripNeg l).2).2 with
  | none =>
    if !(splitAtDot (stripNeg l).2).1.isEmpty
        && (splitAtDot (stripNeg l).2).1.all Char.isDigit then
      some ((if (stripNeg l).1 then -1 else 1)
        * (digitsVal (splitAtDot (stripNeg l).2).1 : ℚ))
    else none
  | some fp =>
    if !(splitAtDot (stripNeg l).2).1.isEmpty
        && (splitAtDot (stripNeg l).2).1.all Char.isDigit
        && fp.all Char.isDigit then
      some ((if (stripNeg l).1 then -1 else 1)
        * ((digitsVal (splitAtDot (stripNeg l).2).1 : ℚ)
          + (digitsVal fp : ℚ) / 10 ^ fp.length))
    else none

/-- parse_number_id (src/utilities/formatting.py lines 34-48): remove
every dot, turn every comma into a dot, then read the number. -/
def parse_number_id (s : String) : Option ℚ :=
  parseDecimal ((s.toList.filter (fun c => !(c == '.'))).map
    (fun c => if c == ',' then '.' else c))

/-- Value v rounded to d decimal places, the rounding applied to the
magnitude and the sign reapplied, as format_number_id renders it
(half-even, as Python Decimal formatting). -/
def round_to_places (v : ℚ) (d : Nat) : ℚ :=
  (if v < 0 then -1 else 1) * ((rheInt (|v| * 10 ^ d) : ℚ) / 10 ^ d)

end Crm

namespace Crm

/-! ## Lemmas and claim theorems -/

theorem sum_map_ite_eq_sum_filter {α : Type} (p : α → Bool) (f : α → ℚ)
    (l : List α) :
    (l.map (fun i => if p i then f i else 0)).sum
      = ((l.filter p).map f).sum := by
  induction l with
  | nil => rfl
  | cons a t ih =>
    by_cases h : p a = true
    · simp [h, ih]
    · simp only [Bool.not_eq_true] at h
      simp [h, ih]

theorem category_filter_eq (types : List Crm.RevenueType) (cat : String)
    (hcat : cat ≠ "N/A") (i : Crm.RevenueItem) :
    (get_revenue_type_category types i == cat)
      = (joined_category types i == some cat) := by
  unfold get_revenue_type_category joined_category
  cases h : find_revenue_type types i.revenue_type_id with
  | none =>
    simp only [Option.map_none]
    have : ("N/A" == cat) = false := by
      simp only [beq_eq_false_iff_ne, ne_eq]
      exact fun hc => hcat hc.symm
    simp [this]
  | some t => simp

/-- C1: the net revenue reported in the WhatsApp revenue message equals
the sum of the amounts of the line items whose revenue type category
resolves to Addition minus the sum over those resolving to Deduction
(items whose type cannot be resolved contribute to neither), and the
monthly total of Revenue.get_monthly_net_revenue is the sum, over the
revenue entries of the store falling in the month, of exactly that
per-entry net. -/
theorem c1_net_revenue_correct (types : List Crm.RevenueType)
    (items : List Crm.RevenueItem) (revenues : List Crm.Revenue)
    (sid year month : Nat) :
    net_revenue types items
        = ((items.filter
              (fun i => joined_category types i == some "Addition")).map
            (fun i => i.revenue_item_amount)).sum
          - ((items.filter
              (fun i => joined_category types i == some "Deduction")).map
            (fun i => i.revenue_item_amount)).sum
      ∧ get_monthly_net_revenue revenues items types sid year month
        = ((revenues.filter (fun r =>
              r.store_id == sid &&
                dateLE ⟨year, month, 1⟩ r.revenue_date &&
                dateLE r.revenue_date
                  ⟨year, month, daysInMonth year month⟩)).map
            (fun r =>
              let its := items.filter (fun i => i.revenue_id == r.revenue_id)
              ((its.filter
                  (fun i => joined_category types i == some "Addition")).map
                (fun i => i.revenue_item_amount)).sum
                - ((its.filter
                  (fun i => joined_category types i == some "Deduction")).map
                (fun i => i.revenue_item_amount)).sum)).sum := by
  constructor
  · unfold net_revenue total_additions total_deductions
    rw [List.filter_congr (fun i _ => category_filter_eq types "Addition" (by decide) i),
      List.filter_congr (fun i _ => category_filter_eq types "Deduction" (by decide) i)]
  · unfold get_monthly_net_revenue
    simp only
    congr 1
    apply List.map_congr_left
    intro r _
    unfold sql_net_amount
    simp only
    rw [sum_map_ite_eq_sum_filter, sum_map_ite_eq_sum_filter]

theorem find_unique {α : Type} (p : α → Bool) (l : List α) (x : α)
    (hx : x ∈ l) (hp : p x = true)
    (huniq : ∀ y ∈ l, p y = true → y = x) :
    l.find? p = some x := by
  induction l with
  | nil => cases hx
  | cons a t ih =>
    by_cases ha : p a = true
    · have hax : a = x := huniq a (List.mem_cons_self a t) ha
      subst hax
      simp [List.find?_cons, ha]
    · have hxt : x ∈ t := by
        rcases List.mem_cons.mp hx with rfl | h
        · exact absurd hp ha
        · exact h
      rw [List.find?_cons]
      simp only [Bool.not_eq_true] at ha
      rw [ha]
      exact ih hxt (fun y hy hpy => huniq y (List.mem_cons_of_mem a hy) hpy)

/-- C2: when a StoreRevenueTarget exists for the store, year and month of
the revenue and its target_amount is positive, the achievement percentage
of format_revenue_message is accumulated net revenue divided by the target
amount times 100; with no such target, or a nonpositive target_amount, it
is 0.  The targets table is assumed to hold at most one target per store,
year and month. -/
theorem c2_achievement_percentage (targets : List Crm.StoreRevenueTarget)
    (sid year month : Nat) (accumulated : ℚ)
    (huniq : ∀ t1 ∈ targets, ∀ t2 ∈ targets,
      t1.store_id = sid ∧ t1.target_year = year ∧ t1.target_month = month →
      t2.store_id = sid ∧ t2.target_year = year ∧ t2.target_month = month →
      t1 = t2) :
    (∀ t ∈ targets, t.store_id = sid → t.target_year = year →
      t.target_month = month →
      (0 < t.target_amount →
        achievement_percentage targets sid year month accumulated
          = accumulated / t.target_amount * 100)
      ∧ (¬ 0 < t.target_amount →
        achievement_percentage targets sid year month accumulated = 0))
    ∧ ((∀ t ∈ targets,
        ¬(t.store_id = sid ∧ t.target_year = year ∧ t.target_month = month)) →
      achievement_percentage targets sid year month accumulated = 0) := by
  constructor
  · intro t ht hsid hyear hmonth
    have hmem : t ∈ (find_all_for_store_by_year targets sid year).reverse := by
      rw [List.mem_reverse]
      unfold find_all_for_store_by_year
      rw [List.mem_filter]
      exact ⟨ht, by simp [hsid, hyear]⟩
    have hfind : lookup_target_by_month
        (find_all_for_store_by_year targets sid year) month = some t := by
      unfold lookup_target_by_month
      apply find_unique _ _ t hmem (by simp [hmonth])
      intro y hy hpy
      rw [List.mem_reverse] at hy
      unfold find_all_for_store_by_year at hy
      rw [List.mem_filter] at hy
      obtain ⟨hyt, hcond⟩ := hy
      simp only [Bool.and_eq_true, beq_iff_eq] at hcond
      simp only [beq_iff_eq] at hpy
      exact huniq y hyt t ht ⟨hcond.1, hcond.2, hpy⟩ ⟨hsid, hyear, hmonth⟩
    unfold achievement_percentage
    rw [hfind]
    dsimp only
    constructor
    · intro hpos
      rw [if_pos hpos]
    · intro hneg
      rw [if_neg hneg]
  · intro hnone
    have hfind : lookup_target_by_month
        (find_all_for_store_by_year targets sid year) month = none := by
      unfold lookup_target_by_month
      rw [List.find?_eq_none]
      intro y hy
      rw [List.mem_reverse] at hy
      unfold find_all_for_store_by_year at hy
      rw [List.mem_filter] at hy
      obtain ⟨hyt, hcond⟩ := hy
      simp only [Bool.and_eq_true, beq_iff_eq] at hcond
      simp only [beq_iff_eq]
      intro hmonth
      exact hnone y hyt ⟨hcond.1, hcond.2, hmonth⟩
    unfold achievement_percentage
    rw [hfind]

/-- C2 witness: a one-target table where the theorem applies. -/
theorem c2_achievement_percentage_witness :
    (∀ t1 ∈ [(⟨7, 3, 8, 2025, 1000⟩ : Crm.StoreRevenueTarget)],
      ∀ t2 ∈ [(⟨7, 3, 8, 2025, 1000⟩ : Crm.StoreRevenueTarget)],
      t1.store_id = 3 ∧ t1.target_year = 2025 ∧ t1.target_month = 8 →
      t2.store_id = 3 ∧ t2.target_year = 2025 ∧ t2.target_month = 8 →
      t1 = t2)
    ∧ ((∀ t ∈ [(⟨7, 3, 8, 2025, 1000⟩ : Crm.StoreRevenueTarget)],
        t.store_id = 3 → t.target_year = 2025 → t.target_month = 8 →
        (0 < t.target_amount →
          achievement_percentage [⟨7, 3, 8, 2025, 1000⟩] 3 2025 8 250
            = 250 / t.target_amount * 100)
        ∧ (¬ 0 < t.target_amount →
          achievement_percentage [⟨7, 3, 8, 2025, 1000⟩] 3 2025 8 250 = 0))
      ∧ ((∀ t ∈ [(⟨7, 3, 8, 2025, 1000⟩ : Crm.StoreRevenueTarget)],
          ¬(t.store_id = 3 ∧ t.target_year = 2025 ∧ t.target_month = 8)) →
        achievement_percentage [⟨7, 3, 8, 2025, 1000⟩] 3 2025 8 250 = 0)) :=
  ⟨by decide, c2_achievement_percentage _ 3 2025 8 250 (by decide)⟩

/-- C5: evaluation of the embedded performance-notes section at a concrete
input.  With target_amount 1000, accumulated monthly net revenue 300,
daily net revenue 100 and revenue date 2025-08-26 (5 days remaining), the
message shows 100 on both the remaining-target and the required-daily
lines, while the remaining target is 700 and the required daily amount is
140. -/
theorem c5_code_evaluation :
    performance_notes_shown 100 ⟨2025, 8, 26⟩ = some (5, 100, 100)
    ∧ remaining_target 1000 300 = 700
    ∧ required_daily 1000 300 5 = 140
    ∧ (100 : ℚ) ≠ 700
    ∧ (100 : ℚ) ≠ 140 := by
  refine ⟨by decide, ?_, ?_, by decide, by decide⟩
  · unfold remaining_target
    norm_num
  · unfold required_daily remaining_target
    norm_num

theorem digitChar_sub_48 (k : Nat) (h : k < 10) :
    (Nat.digitChar k).toNat - 48 = k := by
  interval_cases k <;> decide

theorem digitChar_isDigit (k : Nat) (h : k < 10) :
    (Nat.digitChar k).isDigit = true := by
  interval_cases k <;> decide

theorem twoDigit_val (n : Nat) (h : n < 100) :
    digitsVal (twoDigit n) = n := by
  unfold digitsVal twoDigit
  simp only [List.foldl_cons, List.foldl_nil]
  rw [digitChar_sub_48 _ (by omega), digitChar_sub_48 _ (by omega)]
  omega

theorem twoDigit_isDigit (n : Nat) (c : Char) (hc : c ∈ twoDigit n) :
    c.isDigit = true := by
  unfold twoDigit at hc
  rw [List.mem_cons, List.mem_cons] at hc
  rcases hc with rfl | rfl | h
  · exact digitChar_isDigit _ (by omega)
  · exact digitChar_isDigit _ (by omega)
  · exact absurd h (List.not_mem_nil c)

/-- C6: generate_reservation_code returns a 10-character string whose
first 4 characters are the given uppercase letters and whose last 6
characters are the two-digit day, month, and year (modulo 100) of the
date, in that order; on insert, Reservation.save generates such a code
when reservation_code is unset and reservation_datetime is set, and
leaves it None when both are unset. -/
theorem c6_reservation_code (letters : List Char) (d : Crm.Date)
    (hlen : letters.length = 4)
    (hup : ∀ c ∈ letters, 'A' ≤ c ∧ c ≤ 'Z')
    (hday : 1 ≤ d.day ∧ d.day ≤ 31)
    (hmonth : 1 ≤ d.month ∧ d.month ≤ 12) :
    (generate_reservation_code letters d).toList.length = 10
    ∧ (generate_reservation_code letters d).toList.take 4 = letters
    ∧ (∀ c ∈ (generate_reservation_code letters d).toList.take 4,
        'A' ≤ c ∧ c ≤ 'Z')
    ∧ (generate_reservation_code letters d).toList.drop 4
        = twoDigit d.day ++ twoDigit d.month ++ twoDigit (d.year % 100)
    ∧ (∀ c ∈ (generate_reservation_code letters d).toList.drop 4,
        c.isDigit)
    ∧ digitsVal (twoDigit d.day) = d.day
    ∧ digitsVal (twoDigit d.month) = d.month
    ∧ digitsVal (twoDigit (d.year % 100)) = d.year % 100
    ∧ reservation_code_on_insert none (some d) letters
        = some (generate_reservation_code letters d)
    ∧ reservation_code_on_insert none none letters = none := by
  have htl : (generate_reservation_code letters d).toList
      = letters ++ (twoDigit d.day ++ twoDigit d.month
        ++ twoDigit (d.year % 100)) := by
    unfold generate_reservation_code
    simp [List.append_assoc]
  refine ⟨?_, ?_, ?_, ?_, ?_, ?_, ?_, ?_, ?_, ?_⟩
  · rw [htl]
    simp [hlen, twoDigit]
  · rw [htl, ← hlen, List.take_left]
  · rw [htl, ← hlen, List.take_left]
    exact hup
  · rw [htl, ← hlen, List.drop_left, List.append_assoc]
  · rw [htl, ← hlen, List.drop_left]
    intro c hc
    rcases List.mem_append.mp hc with h | h
    · rcases List.mem_append.mp h with h2 | h2
      · exact twoDigit_isDigit _ _ h2
      · exact twoDigit_isDigit _ _ h2
    · exact twoDigit_isDigit _ _ h
  · exact twoDigit_val _ (by omega)
  · exact twoDigit_val _ (by omega)
  · exact twoDigit_val _ (by omega)
  · rfl
  · rfl

/-- C6 witness: the theorem applied to the letters ABCD and the date
2025-08-28. -/
theorem c6_reservation_code_witness :
    ((['A', 'B', 'C', 'D'] : List Char).length = 4
      ∧ (∀ c ∈ (['A', 'B', 'C', 'D'] : List Char), 'A' ≤ c ∧ c ≤ 'Z'))
    ∧ (generate_reservation_code ['A', 'B', 'C', 'D']
        ⟨2025, 8, 28⟩).toList.length = 10
    ∧ (generate_reservation_code ['A', 'B', 'C', 'D']
        ⟨2025, 8, 28⟩).toList.take 4 = ['A', 'B', 'C', 'D']
    ∧ digitsVal (twoDigit (Crm.Date.mk 2025 8 28).day) = 28 :=
  have h := c6_reservation_code ['A', 'B', 'C', 'D'] ⟨2025, 8, 28⟩
    (by decide) (by decide) (by decide) (by decide)
  ⟨⟨by decide, by decide⟩, h.1, h.2.1, h.2.2.2.2.2.1⟩

/-- C7: a route wrapped by role_required never runs its handler when no
user is logged in or the logged-in user's level is not among the allowed
roles; those requests are redirected to the login page or to the
dashboard. -/
theorem c7_role_required (allowed : List String) (g_user : Option User)
    (hroles : ∀ r ∈ allowed,
      r ∈ ["Admin", "Operator", "Contributor", "Guest"])
    (hdeny : g_user = none ∨ ∃ u, g_user = some u
      ∧ allowed.contains u.user_level = false) :
    role_required allowed g_user ≠ RouteOutcome.handlerExecuted
    ∧ (role_required allowed g_user = RouteOutcome.redirectLogin
      ∨ role_required allowed g_user = RouteOutcome.redirectDashboard) := by
  rcases hdeny with h | ⟨u, hu, hlev⟩
  · subst h
    exact ⟨by simp [role_required], Or.inl rfl⟩
  · subst hu
    have hnm : u.user_level ∉ allowed := by simpa using hlev
    constructor
    · simp [role_required, hlev]
      exact hnm
    · right
      simp [role_required, hlev]
      exact hnm

/-- C7 witness: a Guest user requesting an Admin-only route. -/
theorem c7_role_required_witness :
    (∀ r ∈ ["Admin"], r ∈ ["Admin", "Operator", "Contributor", "Guest"])
    ∧ role_required ["Admin"] (some ⟨1, "Guest"⟩)
        ≠ RouteOutcome.handlerExecuted
    ∧ (role_required ["Admin"] (some ⟨1, "Guest"⟩)
        = RouteOutcome.redirectLogin
      ∨ role_required ["Admin"] (some ⟨1, "Guest"⟩)
        = RouteOutcome.redirectDashboard) :=
  have h := c7_role_required ["Admin"] (some ⟨1, "Guest"⟩) (by decide)
    (Or.inr ⟨⟨1, "Guest"⟩, rfl, by decide⟩)
  ⟨by decide, h.1, h.2⟩

/-- C8: the keyword arguments join_tables and join_columns_for_search,
passed unconditionally by the Revenue and Reservation overrides of
get_paginated_data and count_all, are not parameters of the BaseModel
methods they call, so every such call raises TypeError. -/
theorem c8_join_kwargs_type_error :
    call_raises_type_error base_get_paginated_data_params
        revenue_join_kwargs = true
    ∧ call_raises_type_error base_count_all_params
        revenue_join_kwargs = true
    ∧ call_raises_type_error base_get_paginated_data_params
        reservation_join_kwargs = true
    ∧ call_raises_type_error base_count_all_params
        reservation_join_kwargs = true := by
  decide

/-- C9: StoreCustomer.save returns True and, when the (store_id,
customer_id) pair is already linked, leaves the store_customers table
unchanged; saving twice has the same effect on the table as saving
once. -/
theorem c9_store_customer_save_idempotent (table : List (Nat × Nat))
    (sid cid : Nat) :
    (store_customer_save table sid cid).1 = true
    ∧ ((sid, cid) ∈ table →
      store_customer_save table sid cid = (true, table))
    ∧ store_customer_save (store_customer_save table sid cid).2 sid cid
        = (true, (store_customer_save table sid cid).2) := by
  unfold store_customer_save
  by_cases h : (sid, cid) ∈ table
  · simp [h]
  · simp [h]

theorem valLe_trans : ∀ a b c : Value,
    valLe a b = true → valLe b c = true → valLe a c = true := by
  intro a b c hab hbc
  cases a <;> cases b <;> cases c <;>
    simp only [valLe, valRank, decide_eq_true_eq] at hab hbc ⊢ <;>
    first
      | omega
      | exact le_trans hab hbc

theorem valLe_total : ∀ a b : Value,
    (valLe a b || valLe b a) = true := by
  intro a b
  cases a <;> cases b <;>
    simp only [valLe, valRank, Bool.or_eq_true, decide_eq_true_eq] <;>
    first
      | omega
      | exact le_total _ _

theorem rowLe_trans (col : String) : ∀ a b c : Row,
    rowLe col a b = true → rowLe col b c = true → rowLe col a c = true :=
  fun a b c hab hbc => valLe_trans _ _ _ hab hbc

theorem rowLe_total (col : String) : ∀ a b : Row,
    (rowLe col a b || rowLe col b a) = true :=
  fun a b => valLe_total _ _

theorem rowGe_trans (col : String) : ∀ a b c : Row,
    rowGe col a b = true → rowGe col b c = true → rowGe col a c = true :=
  fun a b c hab hbc => rowLe_trans col c b a hbc hab

theorem rowGe_total (col : String) : ∀ a b : Row,
    (rowGe col a b || rowGe col b a) = true :=
  fun a b => rowLe_total col b a

theorem mem_searchFilter (sq : Option String) (sc : Option (List String))
    (rows : List Row) (r : Row) (h : r ∈ searchFilter sq sc rows) :
    r ∈ rows := by
  unfold searchFilter at h
  rcases sq with _ | q
  · exact h
  · rcases sc with _ | cols
    · exact h
    · dsimp only at h
      by_cases hc : (!(q == "") && !cols.isEmpty) = true
      · rw [if_pos hc] at h
        exact List.mem_of_mem_filter h
      · rw [if_neg hc] at h
        exact h

theorem orderedRows_some (pk col so : String) (rows : List Row) :
    orderedRows pk (some col) so rows
      = if pyLower so = "desc" then rows.mergeSort (rowGe col)
        else rows.mergeSort (rowLe col) := by
  unfold orderedRows
  by_cases h : pyLower so = "desc"
  · simp [h]
  · by_cases h2 : pyLower so = "asc"
    · simp [h, h2]
    · simp [h, h2]

theorem mem_orderedRows (pk : String) (sb : Option String) (so : String)
    (rows : List Row) (r : Row) (h : r ∈ orderedRows pk sb so rows) :
    r ∈ rows := by
  rcases sb with _ | col
  · exact (List.mergeSort_perm rows (rowLe pk)).subset h
  · rw [orderedRows_some] at h
    by_cases hd : pyLower so = "desc"
    · rw [if_pos hd] at h
      exact (List.mergeSort_perm rows (rowGe col)).subset h
    · rw [if_neg hd] at h
      exact (List.mergeSort_perm rows (rowLe col)).subset h

theorem get_paginated_sublist (rows : List Row) (pk : String)
    (page per_page : Nat) (sq : Option String) (sc : Option (List String))
    (sb : Option String) (so : String) :
    (get_paginated_data rows pk page per_page sq sc sb so).Sublist
      (orderedRows pk sb so (searchFilter sq sc rows)) := by
  unfold get_paginated_data
  exact (List.take_sublist _ _).trans (List.drop_sublist _ _)

/-- C4 counterexample to the claim as stated: searching the listed
column nm for the query a%z returns the row whose nm cell reads abz —
the percent sign acts as a LIKE wildcard — although a%z is not a
case-insensitive substring of abz. -/
theorem c4_substring_counterexample :
    get_paginated_data
        [[("id", Value.vint 1), ("nm", Value.vstr "abz")]] "id" 1 10
        (some "a%z") (some ["nm"]) none "asc"
      = [[("id", Value.vint 1), ("nm", Value.vstr "abz")]]
    ∧ valText (colVal [("id", Value.vint 1), ("nm", Value.vstr "abz")]
        "nm") = "abz"
    ∧ claimed_substring_ci "a%z" "abz" = false := by
  refine ⟨?_, by decide, by decide⟩
  have hfil : searchFilter (some "a%z") (some ["nm"])
      [[("id", Value.vint 1), ("nm", Value.vstr "abz")]]
      = [[("id", Value.vint 1), ("nm", Value.vstr "abz")]] := by
    decide
  unfold get_paginated_data orderedRows
  rw [hfil]
  have hms := List.perm_singleton.mp (List.mergeSort_perm
    [[("id", Value.vint 1), ("nm", Value.vstr "abz")]] (rowLe "id"))
  rw [hms]
  decide

/-- C4, amended: get_paginated_data returns at most per_page records,
namely the records of the sorted result with the first
(page - 1) * per_page of them skipped; the records come from the table
and, when searching, each matches the %query% SQL LIKE pattern
case-insensitively in some listed column (the query's percent and
underscore acting as wildcards); they are ordered by the typed value of
the sort column in the requested direction, any direction other than asc
or desc (case-insensitively) behaving as asc, and by the primary key
ascending when no sort column is given. -/
theorem c4_get_paginated_data (rows : List Row) (pk : String)
    (page per_page : Nat) (sq : Option String) (sc : Option (List String))
    (sb : Option String) (so : String) (hpage : 1 ≤ page) :
    (get_paginated_data rows pk page per_page sq sc sb so).length ≤ per_page
    ∧ get_paginated_data rows pk page per_page sq sc sb so
        = ((orderedRows pk sb so (searchFilter sq sc rows)).drop
            ((page - 1) * per_page)).take per_page
    ∧ (∀ r ∈ get_paginated_data rows pk page per_page sq sc sb so, r ∈ rows)
    ∧ (∀ col, sb = some col →
        (pyLower so = "desc" →
          (get_paginated_data rows pk page per_page sq sc sb so).Pairwise
            (fun a b => valLe (colVal b col) (colVal a col) = true))
        ∧ (pyLower so ≠ "desc" →
          (get_paginated_data rows pk page per_page sq sc sb so).Pairwise
            (fun a b => valLe (colVal a col) (colVal b col) = true)))
    ∧ (sb = none →
        (get_paginated_data rows pk page per_page sq sc sb so).Pairwise
          (fun a b => valLe (colVal a pk) (colVal b pk) = true))
    ∧ (pyLower so ≠ "asc" → pyLower so ≠ "desc" →
        get_paginated_data rows pk page per_page sq sc sb so
          = get_paginated_data rows pk page per_page sq sc sb "asc")
    ∧ (∀ q cols, sq = some q → sc = some cols → q ≠ "" → cols ≠ [] →
        ∀ r ∈ get_paginated_data rows pk page per_page sq sc sb so,
          ∃ c ∈ cols, ilike q (valText (colVal r c)) = true) := by
  refine ⟨?_, rfl, ?_, ?_, ?_, ?_, ?_⟩
  · unfold get_paginated_data
    exact List.length_take_le _ _
  · intro r hr
    exact mem_searchFilter sq sc rows r (mem_orderedRows pk sb so _ r
      ((get_paginated_sublist rows pk page per_page sq sc sb so).subset hr))
  · intro col hcol
    subst hcol
    have hsub := get_paginated_sublist rows pk page per_page sq sc
      (some col) so
    rw [orderedRows_some] at hsub
    constructor
    · intro hdesc
      rw [if_pos hdesc] at hsub
      have hp := List.sorted_mergeSort (rowGe_trans col) (rowGe_total col)
        (searchFilter sq sc rows)
      exact (hp.sublist hsub).imp (fun hab => hab)
    · intro hdesc
      rw [if_neg hdesc] at hsub
      have hp := List.sorted_mergeSort (rowLe_trans col) (rowLe_total col)
        (searchFilter sq sc rows)
      exact (hp.sublist hsub).imp (fun hab => hab)
  · intro hnone
    subst hnone
    have hsub := get_paginated_sublist rows pk page per_page sq sc none so
    have hp := List.sorted_mergeSort (rowLe_trans pk) (rowLe_total pk)
      (searchFilter sq sc rows)
    exact (hp.sublist hsub).imp (fun hab => hab)
  · intro hasc hdesc
    unfold get_paginated_data
    rcases sb with _ | col
    · rfl
    · rw [orderedRows_some, orderedRows_some, if_neg hdesc,
        if_neg (show pyLower "asc" ≠ "desc" by decide)]
  · intro q cols hq hcols hqne hcne r hr
    subst hq
    subst hcols
    have hmem : r ∈ searchFilter (some q) (some cols) rows :=
      mem_orderedRows pk sb so _ r
        ((get_paginated_sublist rows pk page per_page (some q) (some cols)
          sb so).subset hr)
    unfold searchFilter at hmem
    dsimp only at hmem
    have hcond : (!(q == "") && !cols.isEmpty) = true := by
      rcases cols with _ | ⟨c0, cs⟩
      · exact absurd rfl hcne
      · simp [beq_eq_false_iff_ne.mpr hqne]
    rw [if_pos hcond] at hmem
    have := (List.mem_filter.mp hmem).2
    rw [List.any_eq_true] at this
    exact this

/-- C4 witness: one page of one row from a two-row table with integer
primary keys. -/
theorem c4_get_paginated_data_witness :
    1 ≤ 1
    ∧ (get_paginated_data [[("id", Value.vint 1)], [("id", Value.vint 2)]]
        "id" 1 1 none none none "asc").length ≤ 1
    ∧ (∀ r ∈ get_paginated_data
        [[("id", Value.vint 1)], [("id", Value.vint 2)]] "id" 1 1
        none none none "asc",
        r ∈ [[("id", Value.vint 1)], [("id", Value.vint 2)]]) :=
  have h := c4_get_paginated_data
    [[("id", Value.vint 1)], [("id", Value.vint 2)]] "id" 1 1
    none none none "asc" (by decide)
  ⟨by decide, h.1, h.2.2.1⟩

theorem find?_append_of_none {α : Type} (p : α → Bool) (l1 l2 : List α)
    (h : l1.find? p = none) : (l1 ++ l2).find? p = l2.find? p := by
  induction l1 with
  | nil => rfl
  | cons a t ih =>
    rw [List.find?_cons] at h
    rw [List.cons_append, List.find?_cons]
    cases hp : p a with
    | true => rw [hp] at h; cases h
    | false =>
      rw [hp] at h
      exact ih h

theorem find?_append_of_some {α : Type} (p : α → Bool) (l1 l2 : List α)
    (x : α) (h : l1.find? p = some x) : (l1 ++ l2).find? p = some x := by
  induction l1 with
  | nil => cases h
  | cons a t ih =>
    rw [List.find?_cons] at h
    rw [List.cons_append, List.find?_cons]
    cases hp : p a with
    | true =>
      rw [hp] at h
      exact h
    | false =>
      rw [hp] at h
      exact ih h

theorem lookupAttr_setAttr_self (a : Attrs) (k : String) (v : Value) :
    lookupAttr (setAttr a k v) k = some v := by
  unfold setAttr
  by_cases h : a.any (fun kv => kv.1 == k) = true
  · rw [if_pos h]
    unfold lookupAttr
    induction a with
    | nil => cases h
    | cons kv t ih =>
      rw [List.map_cons]
      by_cases hk : (kv.1 == k) = true
      · simp [List.find?_cons, hk]
      · rw [List.any_cons] at h
        simp only [hk, Bool.false_or] at h
        simp only [Bool.not_eq_true] at hk
        rw [if_neg (by simp [hk]), List.find?_cons]
        simp only [hk]
        exact ih h
  · rw [if_neg h]
    unfold lookupAttr
    rw [find?_append_of_none]
    · simp
    · rw [List.find?_eq_none]
      intro kv hkv
      simp only [Bool.not_eq_true] at h
      exact List.any_eq_false.mp h kv hkv

theorem lookupAttr_setAttr_ne (a : Attrs) (k kq : String) (v : Value)
    (hne : kq ≠ k) : lookupAttr (setAttr a k v) kq = lookupAttr a kq := by
  unfold setAttr
  by_cases h : a.any (fun kv => kv.1 == k) = true
  · rw [if_pos h]
    unfold lookupAttr
    clear h
    induction a with
    | nil => rfl
    | cons kv t ih =>
      rw [List.map_cons]
      by_cases hk : (kv.1 == k) = true
      · have hkk : kv.1 = k := by simpa using hk
        rw [if_pos hk, List.find?_cons, List.find?_cons]
        have h1 : (k == kq) = false := by
          simp [beq_eq_false_iff_ne]
          exact fun hc => hne hc.symm
        have h2 : (kv.1 == kq) = false := by
          rw [hkk]
          exact h1
        simp only [h1, h2]
        exact ih
      · rw [if_neg hk, List.find?_cons, List.find?_cons]
        cases hq : (kv.1 == kq) with
        | true => simp
        | false => simpa using ih
  · rw [if_neg h]
    unfold lookupAttr
    cases hf : a.find? (fun kv => kv.1 == kq) with
    | some x => rw [find?_append_of_some _ _ _ _ hf]
    | none =>
      rw [find?_append_of_none _ _ _ hf]
      have : (k == kq) = false := by
        simp only [beq_eq_false_iff_ne, ne_eq]
        exact fun hc => hne hc.symm
      simp [List.find?_cons, this]

theorem lookupAttr_applySets_not_mem (row : Attrs) (sets : Attrs)
    (k : String) (h : ∀ kv ∈ sets, kv.1 ≠ k) :
    lookupAttr (applySets row sets) k = lookupAttr row k := by
  induction sets generalizing row with
  | nil => rfl
  | cons kv t ih =>
    unfold applySets
    rw [List.foldl_cons]
    have hstep := lookupAttr_setAttr_ne row kv.1 k kv.2
      (fun hc => h kv (List.mem_cons_self kv t) hc.symm)
    calc lookupAttr (t.foldl (fun r kv2 => setAttr r kv2.1 kv2.2)
          (setAttr row kv.1 kv.2)) k
        = lookupAttr (setAttr row kv.1 kv.2) k :=
          ih (setAttr row kv.1 kv.2)
            (fun y hy => h y (List.mem_cons_of_mem kv hy))
      _ = lookupAttr row k := hstep

theorem lookupAttr_applySets_mem (row : Attrs) (sets : Attrs) (k : String)
    (v : Value) (hnodup : (sets.map Prod.fst).Nodup)
    (hmem : (k, v) ∈ sets) :
    lookupAttr (applySets row sets) k = some v := by
  induction sets generalizing row with
  | nil => cases hmem
  | cons kv t ih =>
    unfold applySets
    rw [List.foldl_cons]
    rw [List.map_cons, List.nodup_cons] at hnodup
    rcases List.mem_cons.mp hmem with heq | hmemt
    · subst heq
      have hnot : ∀ kv2 ∈ t, kv2.1 ≠ k := by
        intro kv2 hkv2 hc
        have hm := List.mem_map_of_mem Prod.fst hkv2
        rw [hc] at hm
        exact hnodup.1 hm
      calc lookupAttr (t.foldl (fun r kv2 => setAttr r kv2.1 kv2.2)
            (setAttr row k v)) k
          = lookupAttr (setAttr row k v) k :=
            lookupAttr_applySets_not_mem _ t k hnot
        _ = some v := lookupAttr_setAttr_self row k v
    · exact ih (setAttr row kv.1 kv.2) hnodup.2 hmemt

theorem setAttr_keys_nodup (a : Attrs) (k : String) (v : Value)
    (h : (a.map Prod.fst).Nodup) :
    ((setAttr a k v).map Prod.fst).Nodup := by
  unfold setAttr
  by_cases hany : a.any (fun kv => kv.1 == k) = true
  · rw [if_pos hany]
    have hkeys : (a.map (fun kv => if kv.1 == k then (k, v) else kv)).map
        Prod.fst = a.map Prod.fst := by
      rw [List.map_map]
      apply List.map_congr_left
      intro kv _
      by_cases hk : (kv.1 == k) = true
      · have hkk : kv.1 = k := eq_of_beq hk
        simp [hk, hkk]
      · have hkk : kv.1 ≠ k := by simpa using hk
        simp [hkk]
    rw [hkeys]
    exact h
  · rw [if_neg hany]
    rw [List.map_append]
    simp only [Bool.not_eq_true] at hany
    have hnot : k ∉ a.map Prod.fst := by
      intro hmem
      rcases List.mem_map.mp hmem with ⟨kv, hkv, hfst⟩
      have := List.any_eq_false.mp hany kv hkv
      simp only [Bool.not_eq_true, beq_eq_false_iff_ne, ne_eq] at this
      exact this hfst
    refine List.Nodup.append h (by simp) ?_
    intro x hx hx2
    simp only [List.map_cons, List.map_nil, List.mem_singleton] at hx2
    subst hx2
    exact hnot hx

theorem applySets_keys_nodup (row : Attrs) (sets : Attrs)
    (h : (row.map Prod.fst).Nodup) :
    ((applySets row sets).map Prod.fst).Nodup := by
  induction sets generalizing row with
  | nil => exact h
  | cons kv t ih =>
    unfold applySets
    rw [List.foldl_cons]
    exact ih (setAttr row kv.1 kv.2) (setAttr_keys_nodup row kv.1 kv.2 h)

theorem lookupAttr_filter (l : Attrs) (p : String × Value → Bool)
    (k : String) (v : Value) (hl : lookupAttr l k = some v)
    (hp : p (k, v) = true) :
    lookupAttr (l.filter p) k = some v := by
  induction l with
  | nil => cases hl
  | cons kv t ih =>
    rw [List.filter_cons]
    unfold lookupAttr at hl
    rw [List.find?_cons] at hl
    by_cases hk : (kv.1 == k) = true
    · rw [hk] at hl
      simp only [Option.map_some'] at hl
      have hkv : kv = (k, v) := by
        rcases kv with ⟨k1, v1⟩
        have h1 : k1 = k := by simpa using hk
        have h2 : v1 = v := by simpa using hl
        rw [h1, h2]
      rw [if_pos (by rw [hkv]; exact hp)]
      unfold lookupAttr
      rw [List.find?_cons, hk, hkv]
      simp
    · simp only [Bool.not_eq_true] at hk
      rw [hk] at hl
      by_cases hpk : p kv = true
      · rw [if_pos hpk]
        unfold lookupAttr
        rw [List.find?_cons, hk]
        exact ih hl
      · rw [if_neg hpk]
        exact ih hl

theorem insertAttrs_updated_at (attrs : Attrs) (now : Nat) :
    lookupAttr (insertAttrs attrs now) "updated_at"
      = some (Value.vtime now) :=
  lookupAttr_setAttr_self _ _ _

theorem insertAttrs_created_at (attrs : Attrs) (now : Nat) :
    lookupAttr (insertAttrs attrs now) "created_at"
      = some (Value.vtime now) := by
  unfold insertAttrs
  rw [lookupAttr_setAttr_ne _ _ _ _ (by decide)]
  exact lookupAttr_setAttr_self _ _ _

theorem insertRow_created_at (attrs : Attrs) (pk : String) (now : Nat)
    (hpk : pk ≠ "created_at") :
    lookupAttr (insertRow attrs pk now) "created_at"
      = some (Value.vtime now) := by
  unfold insertRow
  apply lookupAttr_filter _ _ _ _ (insertAttrs_created_at attrs now)
  have : (("created_at" : String) == pk) = false :=
    beq_eq_false_iff_ne.mpr (fun hc => hpk hc.symm)
  simp [this]

theorem insertRow_updated_at (attrs : Attrs) (pk : String) (now : Nat)
    (hpk : pk ≠ "updated_at") :
    lookupAttr (insertRow attrs pk now) "updated_at"
      = some (Value.vtime now) := by
  unfold insertRow
  apply lookupAttr_filter _ _ _ _ (insertAttrs_updated_at attrs now)
  have : (("updated_at" : String) == pk) = false :=
    beq_eq_false_iff_ne.mpr (fun hc => hpk hc.symm)
  simp [this]

theorem insertRow_keys_nodup (attrs : Attrs) (pk : String) (now : Nat)
    (h : (attrs.map Prod.fst).Nodup) :
    ((insertRow attrs pk now).map Prod.fst).Nodup := by
  have h1 : ((insertAttrs attrs now).map Prod.fst).Nodup :=
    setAttr_keys_nodup _ _ _ (setAttr_keys_nodup _ _ _ h)
  exact h1.sublist (List.Sublist.map Prod.fst (List.filter_sublist _))

theorem updateSets_mem_updated_at (attrs : Attrs) (pk : String)
    (now : Nat) :
    ("updated_at", Value.vtime now) ∈ updateSets attrs pk now :=
  List.mem_append_right _ (List.mem_singleton.mpr rfl)

theorem updateSets_keys_nodup (attrs : Attrs) (pk : String) (now : Nat)
    (h : (attrs.map Prod.fst).Nodup) :
    ((updateSets attrs pk now).map Prod.fst).Nodup := by
  unfold updateSets
  rw [List.map_append]
  refine List.Nodup.append
    (h.sublist (List.Sublist.map Prod.fst (List.filter_sublist _)))
    (by simp) ?_
  intro x hx hx2
  simp only [List.map_cons, List.map_nil, List.mem_singleton] at hx2
  subst hx2
  rcases List.mem_map.mp hx with ⟨kv, hkv, hfst⟩
  have hcond := (List.mem_filter.mp hkv).2
  rw [Bool.and_eq_true] at hcond
  have h5 : (updateExcluded.contains kv.1) = false := by
    have := hcond.2
    rwa [Bool.not_eq_true'] at this
  rw [hfst] at h5
  exact absurd h5 (by decide)

theorem updateSets_no_pk (attrs : Attrs) (pk : String) (now : Nat)
    (hpk : pk ≠ "updated_at") :
    ∀ kv ∈ updateSets attrs pk now, kv.1 ≠ pk := by
  intro kv hkv
  unfold updateSets at hkv
  rcases List.mem_append.mp hkv with hf | hs
  · have hcond := (List.mem_filter.mp hf).2
    rw [Bool.and_eq_true] at hcond
    have := hcond.1
    rw [Bool.not_eq_true', beq_eq_false_iff_ne] at this
    exact this
  · rcases List.mem_cons.mp hs with rfl | hcx
    · exact fun hc => hpk hc.symm
    · cases hcx

theorem unknown_error_not_dup (rest : String) :
    "Unknown error during save." ≠ dupPrefix ++ rest := by
  obtain ⟨l⟩ := rest
  intro h
  have h2 := congrArg String.data h
  have h3 : (dupPrefix ++ String.mk l).data = dupPrefix.data ++ l := rfl
  rw [h3] at h2
  have h4 : "Unknown error during save.".data
      = 'U' :: "nknown error during save.".data := rfl
  have h5 : dupPrefix.data ++ l = 'd' :: ("uplicate_key_error:".data ++ l) :=
    rfl
  rw [h4, h5] at h2
  have := List.head_eq_of_cons_eq h2
  exact absurd this (by decide)

/-- C3: BaseModel.save updates the row keyed on the primary key when the
primary-key attribute is set (leaving other rows unchanged and setting
updated_at) and inserts a new row otherwise (setting created_at and
updated_at); on success it returns True with the instance refreshed from
the stored row; it returns False with an error starting with
duplicate_key_error: exactly when the database reports a unique
violation, and the table is rolled back unchanged in that case. -/
theorem c3_base_model_save (cs : List UniqueConstraint) (pk : String)
    (now : Nat) (attrs : Attrs) (table : List Attrs)
    (hattrs : (attrs.map Prod.fst).Nodup)
    (hrows : ∀ row ∈ table, (row.map Prod.fst).Nodup)
    (hpk1 : pk ≠ "created_at") (hpk2 : pk ≠ "updated_at") :
    (truthy (pkValueOf attrs pk) = true →
      (base_model_save cs pk now attrs table).table.length = table.length
      ∧ (∀ row ∈ table,
          lookupAttr row pk ≠ some (pkValueOf attrs pk) →
          row ∈ (base_model_save cs pk now attrs table).table)
      ∧ ((base_model_save cs pk now attrs table).ok = true →
          ∃ row ∈ (base_model_save cs pk now attrs table).table,
            lookupAttr row pk = some (pkValueOf attrs pk)
            ∧ lookupAttr row "updated_at" = some (Value.vtime now)
            ∧ (base_model_save cs pk now attrs table).attrs
              = refreshAttrs attrs row
            ∧ ∀ kv ∈ row,
                lookupAttr (base_model_save cs pk now attrs table).attrs
                  kv.1 = some kv.2))
    ∧ (pkValueOf attrs pk = Value.vnull →
        (base_model_save cs pk now attrs table).ok = true →
        (base_model_save cs pk now attrs table).table
          = table ++ [insertRow attrs pk now]
        ∧ lookupAttr (insertRow attrs pk now) "created_at"
          = some (Value.vtime now)
        ∧ lookupAttr (insertRow attrs pk now) "updated_at"
          = some (Value.vtime now)
        ∧ (base_model_save cs pk now attrs table).attrs
          = refreshAttrs (insertAttrs attrs now) (insertRow attrs pk now)
        ∧ ∀ kv ∈ insertRow attrs pk now,
            lookupAttr (base_model_save cs pk now attrs table).attrs kv.1
              = some kv.2)
    ∧ (((base_model_save cs pk now attrs table).ok = false
        ∧ ∃ e, (base_model_save cs pk now attrs table).lastError = some e
          ∧ ∃ rest, e = dupPrefix ++ rest)
      ↔ save_violation cs pk now attrs table = true)
    ∧ (save_violation cs pk now attrs table = true →
        (base_model_save cs pk now attrs table).table = table) := by
  refine ⟨?_, ?_, ?_, ?_⟩
  · intro ht
    unfold base_model_save
    rw [if_pos ht]
    cases hv : findViolation cs (updatedTable table pk (pkValueOf attrs pk)
        (updateSets attrs pk now)) with
    | some cn =>
      refine ⟨rfl, fun row hrow _ => hrow, ?_⟩
      intro hok
      cases hok
    | none =>
      have hlen : (updatedTable table pk (pkValueOf attrs pk)
          (updateSets attrs pk now)).length = table.length := by
        unfold updatedTable
        exact List.length_map _ _
      have hkeep : ∀ row ∈ table,
          lookupAttr row pk ≠ some (pkValueOf attrs pk) →
          row ∈ updatedTable table pk (pkValueOf attrs pk)
            (updateSets attrs pk now) := by
        intro row hrow hne
        have hbeq : (lookupAttr row pk == some (pkValueOf attrs pk))
            = false := beq_eq_false_iff_ne.mpr hne
        have hprop : ¬ ((lookupAttr row pk == some (pkValueOf attrs pk))
            = true) := by
          rw [hbeq]
          exact Bool.false_ne_true
        unfold updatedTable
        refine List.mem_map.mpr ⟨row, hrow, ?_⟩
        rw [if_neg hprop]
      cases hf : (updatedTable table pk (pkValueOf attrs pk)
          (updateSets attrs pk now)).find?
          (fun r => lookupAttr r pk == some (pkValueOf attrs pk)) with
      | some row =>
        refine ⟨hlen, hkeep, ?_⟩
        intro _
        refine ⟨row, List.mem_of_find?_eq_some hf, ?_, ?_, rfl, ?_⟩
        · have := List.find?_some hf
          exact eq_of_beq this
        · have hmem := List.mem_of_find?_eq_some hf
          unfold updatedTable at hmem
          rcases List.mem_map.mp hmem with ⟨orig, horig, heq⟩
          by_cases hc : (lookupAttr orig pk == some (pkValueOf attrs pk))
              = true
          · rw [if_pos hc] at heq
            rw [← heq]
            exact lookupAttr_applySets_mem orig (updateSets attrs pk now)
              "updated_at" (Value.vtime now)
              (updateSets_keys_nodup attrs pk now hattrs)
              (updateSets_mem_updated_at attrs pk now)
          · rw [if_neg hc] at heq
            have := List.find?_some hf
            rw [← heq] at this
            exact absurd this hc
        · intro kv hkv
          have hmem := List.mem_of_find?_eq_some hf
          unfold updatedTable at hmem
          rcases List.mem_map.mp hmem with ⟨orig, horig, heq⟩
          have hnodup : (row.map Prod.fst).Nodup := by
            by_cases hc : (lookupAttr orig pk == some (pkValueOf attrs pk))
                = true
            · rw [if_pos hc] at heq
              rw [← heq]
              exact applySets_keys_nodup orig _ (hrows orig horig)
            · rw [if_neg hc] at heq
              rw [← heq]
              exact hrows orig horig
          exact lookupAttr_applySets_mem attrs row kv.1 kv.2 hnodup hkv
      | none =>
        refine ⟨hlen, hkeep, ?_⟩
        intro hok
        cases hok
  · intro hnull
    have ht : truthy (pkValueOf attrs pk) = false := by
      rw [hnull]
      rfl
    have htprop : ¬ (truthy (pkValueOf attrs pk) = true) := by
      rw [ht]
      exact Bool.false_ne_true
    unfold base_model_save
    rw [if_neg htprop]
    cases hv : findViolation cs (table ++ [insertRow attrs pk now]) with
    | some cn =>
      intro hok
      cases hok
    | none =>
      intro _
      refine ⟨rfl, insertRow_created_at attrs pk now hpk1,
        insertRow_updated_at attrs pk now hpk2, rfl, ?_⟩
      intro kv hkv
      exact lookupAttr_applySets_mem (insertAttrs attrs now)
        (insertRow attrs pk now) kv.1 kv.2
        (insertRow_keys_nodup attrs pk now hattrs) hkv
  · constructor
    · rintro ⟨hok, e, he, rest, hrest⟩
      unfold base_model_save at hok he
      unfold save_violation
      by_cases ht : truthy (pkValueOf attrs pk) = true
      · rw [if_pos ht] at hok he
        rw [if_pos ht]
        cases hv : findViolation cs (updatedTable table pk
            (pkValueOf attrs pk) (updateSets attrs pk now)) with
        | some cn => rfl
        | none =>
          rw [hv] at hok he
          cases hf : (updatedTable table pk (pkValueOf attrs pk)
              (updateSets attrs pk now)).find?
              (fun r => lookupAttr r pk == some (pkValueOf attrs pk)) with
          | some row =>
            rw [hf] at hok
            cases hok
          | none =>
            rw [hf] at he
            have he2 : e = "Unknown error during save." := by
              have := Option.some.inj he
              exact this.symm
            rw [he2] at hrest
            exact absurd hrest (unknown_error_not_dup rest)
      · rw [if_neg ht] at hok he
        rw [if_neg ht]
        cases hv : findViolation cs (table ++ [insertRow attrs pk now]) with
        | some cn => rfl
        | none =>
          rw [hv] at hok
          cases hok
    · intro hsv
      unfold save_violation at hsv
      unfold base_model_save
      by_cases ht : truthy (pkValueOf attrs pk) = true
      · rw [if_pos ht] at hsv
        rw [if_pos ht]
        rcases Option.isSome_iff_exists.mp hsv with ⟨cn, hcn⟩
        rw [hcn]
        exact ⟨rfl, dupPrefix ++ cn, rfl, cn, rfl⟩
      · rw [if_neg ht] at hsv
        rw [if_neg ht]
        rcases Option.isSome_iff_exists.mp hsv with ⟨cn, hcn⟩
        rw [hcn]
        exact ⟨rfl, dupPrefix ++ cn, rfl, cn, rfl⟩
  · intro hsv
    unfold save_violation at hsv
    unfold base_model_save
    by_cases ht : truthy (pkValueOf attrs pk) = true
    · rw [if_pos ht] at hsv
      rw [if_pos ht]
      rcases Option.isSome_iff_exists.mp hsv with ⟨cn, hcn⟩
      rw [hcn]
    · rw [if_neg ht] at hsv
      rw [if_neg ht]
      rcases Option.isSome_iff_exists.mp hsv with ⟨cn, hcn⟩
      rw [hcn]

/-- C3 witness: inserting a fresh row into an empty table with a unique
constraint on the name column. -/
theorem c3_base_model_save_witness :
    (([("id", Value.vnull), ("name", Value.vstr "x")] : Attrs).map
        Prod.fst).Nodup
    ∧ (((base_model_save [⟨"uq_name", ["name"]⟩] "id" 5
          [("id", Value.vnull), ("name", Value.vstr "x")] []).ok = false
        ∧ ∃ e, (base_model_save [⟨"uq_name", ["name"]⟩] "id" 5
            [("id", Value.vnull), ("name", Value.vstr "x")] []).lastError
            = some e
          ∧ ∃ rest, e = dupPrefix ++ rest)
      ↔ save_violation [⟨"uq_name", ["name"]⟩] "id" 5
          [("id", Value.vnull), ("name", Value.vstr "x")] [] = true) :=
  ⟨by decide,
    (c3_base_model_save [⟨"uq_name", ["name"]⟩] "id" 5
      [("id", Value.vnull), ("name", Value.vstr "x")] [] (by decide)
      (by intro row hrow; cases hrow) (by decide) (by decide)).2.2.1⟩

theorem digit_bne_of_isDigit (c x : Char) (h : c.isDigit = true)
    (hx : x.isDigit = false) : (c == x) = false := by
  rw [beq_eq_false_iff_ne]
  intro hc
  rw [hc, hx] at h
  cases h

theorem swapSep_digit (c : Char) (h : c.isDigit = true) : swapSep c = c := by
  unfold swapSep
  rw [digit_bne_of_isDigit c ',' h (by decide),
    digit_bne_of_isDigit c '.' h (by decide)]
  rfl

theorem comma_to_dot_digit (c : Char) (h : c.isDigit = true) :
    (if c == ',' then '.' else c) = c := by
  rw [digit_bne_of_isDigit c ',' h (by decide)]
  rfl

theorem foldl_digitsVal (a : Nat) (l : List Char) :
    l.foldl (fun x c => x * 10 + (c.toNat - 48)) a
      = a * 10 ^ l.length + digitsVal l := by
  induction l generalizing a with
  | nil => simp [digitsVal]
  | cons c t ih =>
    unfold digitsVal
    rw [List.foldl_cons, List.foldl_cons, ih, ih (0 * 10 + (c.toNat - 48))]
    rw [List.length_cons]
    ring

theorem digitsVal_append (l1 l2 : List Char) :
    digitsVal (l1 ++ l2) = digitsVal l1 * 10 ^ l2.length + digitsVal l2 := by
  unfold digitsVal
  rw [List.foldl_append]
  exact foldl_digitsVal _ l2

theorem digitsVal_replicate_zero (k : Nat) :
    digitsVal (List.replicate k '0') = 0 := by
  induction k with
  | zero => rfl
  | succ k ih =>
    rw [List.replicate_succ]
    unfold digitsVal at ih ⊢
    rw [List.foldl_cons]
    simpa using ih

theorem digitsVal_rev_map (L : List Nat) (h : ∀ x ∈ L, x < 10) :
    digitsVal (L.reverse.map Nat.digitChar) = Nat.ofDigits 10 L := by
  induction L with
  | nil => simp [digitsVal, Nat.ofDigits_nil]
  | cons x T ih =>
    rw [List.reverse_cons, List.map_append, digitsVal_append]
    rw [ih (fun y hy => h y (List.mem_cons_of_mem x hy))]
    have hx : x < 10 := h x (List.mem_cons_self x T)
    simp only [List.map_cons, List.map_nil, List.length_cons,
      List.length_nil]
    have hdv : digitsVal [Nat.digitChar x] = x := by
      unfold digitsVal
      rw [List.foldl_cons, List.foldl_nil]
      rw [Nat.zero_mul, Nat.zero_add]
      exact digitChar_sub_48 x hx
    rw [hdv, Nat.ofDigits_cons, pow_one]
    omega

theorem digitsVal_natDigits (n : Nat) : digitsVal (natDigits n) = n := by
  unfold natDigits
  by_cases h : n = 0
  · rw [if_pos h, h]
    rfl
  · rw [if_neg h]
    rw [digitsVal_rev_map _ (fun x hx => Nat.digits_lt_base (by norm_num) hx)]
    exact Nat.ofDigits_digits 10 n

theorem natDigits_all_digits (n : Nat) :
    ∀ c ∈ natDigits n, c.isDigit = true := by
  unfold natDigits
  by_cases h : n = 0
  · rw [if_pos h]
    intro c hc
    rw [List.mem_singleton] at hc
    rw [hc]
    decide
  · rw [if_neg h]
    intro c hc
    rcases List.mem_map.mp hc with ⟨x, hx, hcx⟩
    rw [List.mem_reverse] at hx
    rw [← hcx]
    exact digitChar_isDigit x (Nat.digits_lt_base (by norm_num) hx)

theorem natDigits_ne_nil (n : Nat) : natDigits n ≠ [] := by
  unfold natDigits
  by_cases h : n = 0
  · rw [if_pos h]
    exact List.cons_ne_nil _ _
  · rw [if_neg h]
    intro hc
    rw [List.map_eq_nil_iff, List.reverse_eq_nil_iff] at hc
    exact h (Nat.digits_eq_nil_iff_eq_zero.mp hc)

theorem digits_len_le (m d : Nat) (h : m < 10 ^ d) :
    (Nat.digits 10 m).length ≤ d := by
  rcases Nat.eq_zero_or_pos m with rfl | hm
  · simp
  · rw [Nat.digits_len 10 m (by norm_num) (by omega)]
    have hlog : Nat.log 10 m < d := Nat.log_lt_of_lt_pow (by omega) h
    omega

theorem fracDigits_length (d m : Nat) (h : m < 10 ^ d) :
    (fracDigits d m).length = d := by
  unfold fracDigits
  rw [List.length_append, List.length_replicate]
  by_cases hm : m = 0
  · simp [hm]
  · rw [if_neg hm]
    rw [List.length_map, List.length_reverse]
    have := digits_len_le m d h
    omega

theorem fracDigits_val (d m : Nat) : digitsVal (fracDigits d m) = m := by
  unfold fracDigits
  rw [digitsVal_append, digitsVal_replicate_zero, Nat.zero_mul,
    Nat.zero_add]
  by_cases hm : m = 0
  · rw [if_pos hm, hm]
    rfl
  · rw [if_neg hm]
    rw [digitsVal_rev_map _ (fun x hx => Nat.digits_lt_base (by norm_num) hx)]
    exact Nat.ofDigits_digits 10 m

theorem fracDigits_all_digits (d m : Nat) :
    ∀ c ∈ fracDigits d m, c.isDigit = true := by
  unfold fracDigits
  intro c hc
  rcases List.mem_append.mp hc with h1 | h2
  · rw [List.eq_of_mem_replicate h1]
    decide
  · by_cases hm : m = 0
    · rw [if_pos hm] at h2
      cases h2
    · rw [if_neg hm] at h2
      rcases List.mem_map.mp h2 with ⟨x, hx, hcx⟩
      rw [List.mem_reverse] at hx
      rw [← hcx]
      exact digitChar_isDigit x (Nat.digits_lt_base (by norm_num) hx)

theorem group3Rev_short (sep : Char) (l : List Char) (h : l.length < 4) :
    group3Rev sep l = l := by
  rcases l with _ | ⟨x1, _ | ⟨x2, _ | ⟨x3, _ | ⟨x4, t⟩⟩⟩⟩
  · rfl
  · rfl
  · rfl
  · rfl
  · simp only [List.length_cons] at h
    omega

theorem group3Rev_filter (sep : Char) (l : List Char) :
    (group3Rev sep l).filter (fun c => !(c == sep))
      = l.filter (fun c => !(c == sep)) := by
  induction l using group3Rev.induct sep with
  | case1 a b c d rest ih =>
    rw [group3Rev]
    simp [List.filter_cons, ih]
  | case2 l h =>
    rw [group3Rev]
    exact h

theorem group3Rev_map (f : Char → Char) (sep : Char) (l : List Char) :
    (group3Rev sep l).map f = group3Rev (f sep) (l.map f) := by
  induction l using group3Rev.induct sep with
  | case1 a b c d rest ih =>
    rw [group3Rev]
    simp only [List.map_cons]
    rw [group3Rev]
    simp [ih]
  | case2 l h =>
    have hlen : l.length < 4 := by
      rcases l with _ | ⟨x1, _ | ⟨x2, _ | ⟨x3, _ | ⟨x4, t⟩⟩⟩⟩
      · simp
      · simp
      · simp
      · simp
      · exact (h x1 x2 x3 x4 t rfl).elim
    rw [group3Rev_short sep l hlen, group3Rev_short (f sep) (l.map f)
      (by rw [List.length_map]; exact hlen)]

theorem group3_map (f : Char → Char) (sep : Char) (l : List Char) :
    (group3 sep l).map f = group3 (f sep) (l.map f) := by
  unfold group3
  rw [List.map_reverse, group3Rev_map, List.map_reverse]

theorem group3_filter (sep : Char) (l : List Char) :
    (group3 sep l).filter (fun c => !(c == sep))
      = l.filter (fun c => !(c == sep)) := by
  unfold group3
  rw [List.filter_reverse, group3Rev_filter, List.filter_reverse,
    List.reverse_reverse]

theorem splitAtDot_no_dot (l : List Char)
    (h : ∀ c ∈ l, (c == '.') = false) : splitAtDot l = (l, none) := by
  induction l with
  | nil => rfl
  | cons c t ih =>
    unfold splitAtDot
    rw [if_neg (by rw [h c (List.mem_cons_self c t)]; exact
      Bool.false_ne_true)]
    rw [ih (fun x hx => h x (List.mem_cons_of_mem c hx))]

theorem splitAtDot_append (l1 l2 : List Char)
    (h : ∀ c ∈ l1, (c == '.') = false) :
    splitAtDot (l1 ++ '.' :: l2) = (l1, some l2) := by
  induction l1 with
  | nil =>
    rw [List.nil_append]
    unfold splitAtDot
    rw [if_pos (by decide)]
  | cons c t ih =>
    rw [List.cons_append]
    unfold splitAtDot
    rw [if_neg (by rw [h c (List.mem_cons_self c t)]; exact
      Bool.false_ne_true)]
    rw [ih (fun x hx => h x (List.mem_cons_of_mem c hx))]

theorem rheInt_nonneg (q : ℚ) (h : 0 ≤ q) : 0 ≤ rheInt q := by
  unfold rheInt
  have hf : 0 ≤ ⌊q⌋ := Int.floor_nonneg.mpr h
  split_ifs <;> omega

theorem stripNeg_neg (l : List Char) : stripNeg ('-' :: l) = (true, l) := by
  show (if ('-' == '-') = true then (true, l) else (false, '-' :: l))
    = (true, l)
  rw [if_pos (by decide)]

theorem stripNeg_digit (c : Char) (l : List Char) (h : c.isDigit = true) :
    stripNeg (c :: l) = (false, c :: l) := by
  have hne : (c == '-') = false := digit_bne_of_isDigit c '-' h (by decide)
  show (if (c == '-') = true then (true, l) else (false, c :: l))
    = (false, c :: l)
  rw [if_neg (by rw [hne]; exact Bool.false_ne_true)]

theorem nat_div_mod_cast (n d : Nat) :
    ((n / 10 ^ d : ℕ) : ℚ) + ((n % 10 ^ d : ℕ) : ℚ) / 10 ^ d
      = (n : ℚ) / 10 ^ d := by
  have hnat : n / 10 ^ d * 10 ^ d + n % 10 ^ d = n := by
    rw [Nat.mul_comm]
    exact Nat.div_add_mod n (10 ^ d)
  have h10 : ((10 : ℚ)) ^ d ≠ 0 := by positivity
  field_simp
  rw [show ((10 : ℚ) ^ d) = ((10 ^ d : ℕ) : ℚ) by push_cast; ring]
  rw [← Nat.cast_mul, ← Nat.cast_add]
  exact_mod_cast congrArg (fun m : ℕ => (m : ℚ)) hnat

theorem rheInt_toNat_cast (v : ℚ) (d : Nat) :
    (((rheInt (|v| * 10 ^ d)).toNat : ℕ) : ℚ)
      = ((rheInt (|v| * 10 ^ d) : ℤ) : ℚ) := by
  have h := Int.toNat_of_nonneg (rheInt_nonneg (|v| * 10 ^ d)
    (by positivity))
  exact_mod_cast h

theorem format_processed (v : ℚ) (d : Nat) :
    ((format_number_id v d).toList.filter (fun c => !(c == '.'))).map
        (fun c => if c == ',' then '.' else c)
      = (if v < 0 then ['-'] else [])
        ++ (natDigits ((rheInt (|v| * 10 ^ d)).toNat / 10 ^ d)
          ++ (if d = 0 then [] else
            '.' :: fracDigits d ((rheInt (|v| * 10 ^ d)).toNat
              % 10 ^ d))) := by
  have htl : (format_number_id v d).toList
      = (if v < 0 then ['-'] else [])
        ++ (usFormat (rheInt (|v| * 10 ^ d)).toNat d).map swapSep := rfl
  rw [htl, List.filter_append, List.map_append]
  congr 1
  · by_cases hv : v < 0
    · rw [if_pos hv]
      decide
    · rw [if_neg hv]
      decide
  · unfold usFormat
    rw [List.map_append, List.filter_append, List.map_append]
    congr 1
    · have h1 : (group3 ','
          (natDigits ((rheInt (|v| * 10 ^ d)).toNat / 10 ^ d))).map swapSep
          = group3 '.'
            (natDigits ((rheInt (|v| * 10 ^ d)).toNat / 10 ^ d)) := by
        rw [group3_map]
        have hsw : swapSep ',' = '.' := by decide
        rw [hsw]
        congr 1
        have hid : (natDigits ((rheInt (|v| * 10 ^ d)).toNat
            / 10 ^ d)).map swapSep
            = (natDigits ((rheInt (|v| * 10 ^ d)).toNat / 10 ^ d)).map
              id :=
          List.map_congr_left (fun c hc => swapSep_digit c
            (natDigits_all_digits _ c hc))
        rw [hid, List.map_id]
      rw [h1]
      have h2 : (group3 '.'
          (natDigits ((rheInt (|v| * 10 ^ d)).toNat / 10 ^ d))).filter
            (fun c => !(c == '.'))
          = natDigits ((rheInt (|v| * 10 ^ d)).toNat / 10 ^ d) := by
        rw [group3_filter]
        apply List.filter_eq_self.mpr
        intro c hc
        rw [digit_bne_of_isDigit c '.'
          (natDigits_all_digits _ c hc) (by decide)]
        rfl
      rw [h2]
      have h3 : (natDigits ((rheInt (|v| * 10 ^ d)).toNat / 10 ^ d)).map
          (fun c => if c == ',' then '.' else c)
          = (natDigits ((rheInt (|v| * 10 ^ d)).toNat / 10 ^ d)).map id :=
        List.map_congr_left (fun c hc => comma_to_dot_digit c
          (natDigits_all_digits _ c hc))
      rw [h3, List.map_id]
    · by_cases hd : d = 0
      · rw [if_pos hd]
        rfl
      · rw [if_neg hd]
        rw [List.map_cons]
        have hsw : swapSep '.' = ',' := by decide
        rw [hsw]
        have hmapfd : (fracDigits d ((rheInt (|v| * 10 ^ d)).toNat
            % 10 ^ d)).map swapSep
            = fracDigits d ((rheInt (|v| * 10 ^ d)).toNat % 10 ^ d) := by
          have hid : (fracDigits d ((rheInt (|v| * 10 ^ d)).toNat
              % 10 ^ d)).map swapSep
              = (fracDigits d ((rheInt (|v| * 10 ^ d)).toNat
                % 10 ^ d)).map id :=
            List.map_congr_left (fun c hc => swapSep_digit c
              (fracDigits_all_digits _ _ c hc))
          rw [hid, List.map_id]
        rw [hmapfd]
        have hfil : ((',' :: fracDigits d ((rheInt (|v| * 10 ^ d)).toNat
            % 10 ^ d)).filter (fun c => !(c == '.')))
            = ',' :: fracDigits d ((rheInt (|v| * 10 ^ d)).toNat
              % 10 ^ d) := by
          apply List.filter_eq_self.mpr
          intro c hc
          rcases List.mem_cons.mp hc with rfl | hcm
          · decide
          · rw [digit_bne_of_isDigit c '.'
              (fracDigits_all_digits _ _ c hcm) (by decide)]
            rfl
        rw [hfil, List.map_cons]
        have hcd : (if (',' : Char) == ',' then '.' else ',') = '.' := by
          decide
        rw [hcd]
        have h4 : (fracDigits d ((rheInt (|v| * 10 ^ d)).toNat
            % 10 ^ d)).map (fun c => if c == ',' then '.' else c)
            = (fracDigits d ((rheInt (|v| * 10 ^ d)).toNat
              % 10 ^ d)).map id :=
          List.map_congr_left (fun c hc => comma_to_dot_digit c
            (fracDigits_all_digits _ _ c hc))
        rw [h4, List.map_id]

theorem parseDecimal_assembled (neg : Bool) (n d : Nat) :
    parseDecimal ((if neg then ['-'] else [])
        ++ (natDigits (n / 10 ^ d)
          ++ (if d = 0 then [] else '.' :: fracDigits d (n % 10 ^ d))))
      = some ((if neg then -1 else 1) * ((n : ℚ) / 10 ^ d)) := by
  have hIPdig := natDigits_all_digits (n / 10 ^ d)
  have hIPdots : ∀ c ∈ natDigits (n / 10 ^ d), (c == '.') = false :=
    fun c hcm => digit_bne_of_isDigit c '.' (hIPdig c hcm) (by decide)
  obtain ⟨c0, rest0, hc⟩ :=
    List.exists_cons_of_ne_nil (natDigits_ne_nil (n / 10 ^ d))
  have hne : natDigits (n / 10 ^ d) ≠ [] := natDigits_ne_nil _
  have hstrip : ∀ tl : List Char,
      stripNeg ((if neg then ['-'] else [])
        ++ (natDigits (n / 10 ^ d) ++ tl))
      = (neg, natDigits (n / 10 ^ d) ++ tl) := by
    intro tl
    cases neg with
    | true =>
      show stripNeg (['-'] ++ (natDigits (n / 10 ^ d) ++ tl)) = _
      rw [List.singleton_append]
      exact stripNeg_neg _
    | false =>
      show stripNeg ([] ++ (natDigits (n / 10 ^ d) ++ tl)) = _
      rw [List.nil_append]
      have hmem0 : c0 ∈ natDigits (n / 10 ^ d) := by
        rw [hc]
        exact List.mem_cons_self _ _
      have hsd := stripNeg_digit c0 (rest0 ++ tl) (hIPdig c0 hmem0)
      rw [hc, List.cons_append]
      exact hsd
  have hempty : (natDigits (n / 10 ^ d)).isEmpty = false := by
    rw [hc]
    rfl
  have halldig : (natDigits (n / 10 ^ d)).all Char.isDigit = true :=
    List.all_eq_true.mpr hIPdig
  by_cases hd : d = 0
  · rw [if_pos hd]
    unfold parseDecimal
    rw [hstrip []]
    simp only
    rw [List.append_nil, splitAtDot_no_dot _ hIPdots]
    simp only
    rw [if_pos (by rw [hempty, halldig]; rfl)]
    rw [digitsVal_natDigits]
    rw [hd]
    rw [pow_zero, Nat.div_one, pow_zero, div_one]
  · rw [if_neg hd]
    unfold parseDecimal
    rw [hstrip ('.' :: fracDigits d (n % 10 ^ d))]
    simp only
    rw [splitAtDot_append _ _ hIPdots]
    simp only
    have hfdig : (fracDigits d (n % 10 ^ d)).all Char.isDigit = true :=
      List.all_eq_true.mpr (fracDigits_all_digits d (n % 10 ^ d))
    rw [if_pos (by rw [hempty, halldig, hfdig]; rfl)]
    rw [digitsVal_natDigits, fracDigits_val]
    rw [fracDigits_length d (n % 10 ^ d)
      (Nat.mod_lt n (Nat.pos_pow_of_pos d (by norm_num)))]
    rw [nat_div_mod_cast]

/-- C10: parse_number_id inverts format_number_id: parsing the formatted
rendering of any rational value v at any number of decimals d (thousands
dot, decimal comma, leading minus for negatives) yields exactly v rounded
to d decimal places. -/
theorem c10_parse_format_roundtrip (v : ℚ) (d : Nat) :
    parse_number_id (format_number_id v d)
      = some (round_to_places v d) := by
  unfold parse_number_id round_to_places
  rw [format_processed v d]
  by_cases hv : v < 0
  · rw [if_pos hv, if_pos hv]
    refine Eq.trans (parseDecimal_assembled true
      ((rheInt (|v| * 10 ^ d)).toNat) d) ?_
    show some ((-1 : ℚ)
        * ((((rheInt (|v| * 10 ^ d)).toNat : ℕ) : ℚ) / 10 ^ d))
      = some ((-1 : ℚ) * (((rheInt (|v| * 10 ^ d) : ℤ) : ℚ) / 10 ^ d))
    rw [rheInt_toNat_cast]
  · rw [if_neg hv, if_neg hv]
    refine Eq.trans (parseDecimal_assembled false
      ((rheInt (|v| * 10 ^ d)).toNat) d) ?_
    show some ((1 : ℚ)
        * ((((rheInt (|v| * 10 ^ d)).toNat : ℕ) : ℚ) / 10 ^ d))
      = some ((1 : ℚ) * (((rheInt (|v| * 10 ^ d) : ℤ) : ℚ) / 10 ^ d))
    rw [rheInt_toNat_cast]

/-- C9 witness: saving an already-present link. -/
theorem c9_store_customer_save_idempotent_witness :
    ((1, 2) ∈ [((1 : Nat), (2 : Nat))])
    ∧ store_customer_save [(1, 2)] 1 2 = (true, [(1, 2)]) :=
  ⟨by decide,
    (c9_store_customer_save_idempotent [(1, 2)] 1 2).2.1 (by decide)⟩

end Crm
